import Mathlib

/-!
Shallow embedding of the execution-context and action-queue core
(core/src/context.rs): the `ActionQueue` FIFO of `QueuedActions`, the
`ActionType` tagged union, and their collector `trace` operations.
Collector tracing is modelled as the list of references a structure
reports to the collection context, in the order the source reports them.
-/

/-- Modelled from the spec: a scene-graph node handle (`DisplayObject`,
defined outside this file); an opaque handle supporting identity
comparison. -/
structure DisplayObject where
  id : Nat
  deriving DecidableEq, Repr

/-- Modelled from the spec: an interpreter value (`avm1::Value`, defined
outside this file); may be or contain a reference into the
collector-managed graph, so it is traceable. -/
structure Value where
  id : Nat
  deriving DecidableEq, Repr

/-- Modelled from the spec: a listener category tag
(`avm1::listeners::SystemListener`, defined outside this file). -/
structure SystemListener where
  id : Nat
  deriving DecidableEq, Repr

/-- Modelled from the spec: an immutable bytecode slice
(`tag_utils::SwfSlice`, defined outside this file): a borrowed window
into a larger immutable content blob, with an offset and length. -/
structure SwfSlice where
  movie : Nat
  start : Nat
  stop : Nat
  deriving DecidableEq, Repr

/-- The type of action being run (`ActionType` in context.rs). -/
inductive ActionType where
  /-- Normal frame or event actions. -/
  | Normal (bytecode : SwfSlice)
  /-- A DoInitAction action. -/
  | Init (bytecode : SwfSlice)
  /-- An event handler method, e.g. onEnterFrame. -/
  | Method (name : String)
  /-- A system listener method. -/
  | NotifyListeners (listener : SystemListener) (method : String) (args : List Value)
  deriving DecidableEq, Repr

/-- A queued ActionScript call (`QueuedActions` in context.rs). -/
structure QueuedActions where
  /-- The movie clip this ActionScript is running on. -/
  clip : DisplayObject
  /-- The type of action this is. -/
  action_type : ActionType
  /-- Whether this is an unload action, which can still run if the clip is removed. -/
  is_unload : Bool
  deriving DecidableEq, Repr

/-- A reference reported to the collection context during a trace pass. -/
inductive TracedRef where
  | clipRef (d : DisplayObject)
  | valueRef (v : Value)
  deriving DecidableEq, Repr

/-- `Collect for ActionType` (context.rs lines 235-242): only the
NotifyListeners variant traces, and it traces its argument values
(`args.trace(cc)` traces each element of the vector in order). -/
def ActionType.trace : ActionType → List TracedRef
  | .NotifyListeners _ _ args => args.map TracedRef.valueRef
  | _ => []

/-- `Collect for QueuedActions` (context.rs lines 110-116): traces the
clip, then the action type. -/
def QueuedActions.trace (q : QueuedActions) : List TracedRef :=
  TracedRef.clipRef q.clip :: q.action_type.trace

/-- `ActionQueue` in context.rs: a VecDeque of queued actions, modelled
as the list of its elements front first, together with the reserved
capacity hint of the deque. -/
structure ActionQueue where
  queue : List QueuedActions
  capacity : Nat
  deriving DecidableEq, Repr

/-- `ActionQueue::DEFAULT_CAPACITY`. -/
def ActionQueue.DEFAULT_CAPACITY : Nat := 32

/-- `ActionQueue::new`: an empty queue with the default reserved capacity. -/
def ActionQueue.new : ActionQueue :=
  { queue := [], capacity := ActionQueue.DEFAULT_CAPACITY }

/-- `impl Default for ActionQueue`: delegates to `new`. -/
def ActionQueue.default : ActionQueue :=
  ActionQueue.new

/-- `ActionQueue::queue_actions`: push_back of a new record built from
the three arguments. -/
def ActionQueue.queue_actions (q : ActionQueue) (clip : DisplayObject)
    (action_type : ActionType) (is_unload : Bool) : ActionQueue :=
  { q with queue := q.queue ++ [{ clip := clip, action_type := action_type, is_unload := is_unload }] }

/-- `ActionQueue::pop`: pop_front, returning the popped record (if any)
together with the queue state after the call. -/
def ActionQueue.pop (q : ActionQueue) : Option QueuedActions × ActionQueue :=
  match q.queue with
  | [] => (none, q)
  | r :: rest => (some r, { q with queue := rest })

/-- `Collect for ActionQueue` (context.rs lines 161-166): traces every
queued record, in queue order. -/
def ActionQueue.trace (q : ActionQueue) : List TracedRef :=
  q.queue.flatMap QueuedActions.trace

/-- An enqueue request: the argument triple of one `queue_actions` call. -/
def mkRecord : DisplayObject × ActionType × Bool → QueuedActions
  | (c, a, u) => { clip := c, action_type := a, is_unload := u }

/-- A sequence of `queue_actions` calls, first request first. -/
def enqueueAll : ActionQueue → List (DisplayObject × ActionType × Bool) → ActionQueue
  | q, [] => q
  | q, (c, a, u) :: ts => enqueueAll (q.queue_actions c a u) ts

/-- N consecutive `pop` calls, collecting the records returned and the
final queue state. -/
def popN : ActionQueue → Nat → List QueuedActions × ActionQueue
  | q, 0 => ([], q)
  | q, n + 1 =>
    match q.pop with
    | (none, q1) => popN q1 n
    | (some r, q1) =>
      match popN q1 n with
      | (rs, q2) => (r :: rs, q2)

/-- Modelled from the spec: the drain protocol owned by the driving loop
(spec section 4.2), absent from context.rs. Repeatedly pop; if the
popped target is no longer part of the live scene graph and
survives_unload is false, discard without invoking; otherwise invoke.
`live` is the liveness query on scene-graph nodes; the result is the
list of records actually invoked, in order. -/
def drainList (live : DisplayObject → Bool) : List QueuedActions → List QueuedActions
  | [] => []
  | r :: rest =>
    if live r.clip || r.is_unload then r :: drainList live rest
    else drainList live rest

/-- The drain protocol applied to a queue state. -/
def ActionQueue.drain (live : DisplayObject → Bool) (q : ActionQueue) : List QueuedActions :=
  drainList live q.queue

/-- The target-related fields of `UpdateContext` (context.rs lines
64-82): the timeline root, the clip the code is running in, the Flash
4-era target override, and the initial target clip. -/
structure TargetState where
  root : DisplayObject
  active_clip : DisplayObject
  target_clip : Option DisplayObject
  start_clip : DisplayObject
  deriving DecidableEq, Repr

/-- Modelled from the spec: the SetTarget handler (in the AVM1
interpreter, outside this file), per the field docs of context.rs lines
68-82: active_clip will be root after an invalid tell target;
target_clip is None after an invalid tell target; target_clip resets to
start_clip on SetTarget with the empty path. `resolve` is path
resolution against the scene graph. -/
def setTarget (resolve : String → Option DisplayObject) (s : TargetState)
    (path : String) : TargetState :=
  if path = "" then
    { s with target_clip := some s.start_clip, active_clip := s.start_clip }
  else
    match resolve path with
    | some n => { s with target_clip := some n, active_clip := n }
    | none => { s with target_clip := none, active_clip := s.root }

/-- Modelled from the spec: active-target resolution (spec section 4.1):
lookups resolve to the target override if present, else to the active
clip. -/
def activeTarget (s : TargetState) : DisplayObject :=
  s.target_clip.getD s.active_clip

/-- A concrete liveness query used to exercise the drain protocol:
exactly the node with id 1 is still attached to the graph. -/
def live0 : DisplayObject → Bool :=
  fun d => d.id == 1

/-- A concrete path resolution that finds no node at any path. -/
def resolve0 : String → Option DisplayObject :=
  fun _ => none

/-! ## Helper lemmas shared by the claim theorems -/

theorem enqueueAll_eq (ts : List (DisplayObject × ActionType × Bool)) :
    ∀ q : ActionQueue, enqueueAll q ts = ⟨q.queue ++ ts.map mkRecord, q.capacity⟩ := by
  induction ts with
  | nil => intro q; simp [enqueueAll]
  | cons t ts ih =>
    intro q
    obtain ⟨c, a, u⟩ := t
    simp [enqueueAll, ActionQueue.queue_actions, ih, mkRecord]

theorem popN_exact (l : List QueuedActions) (cap : Nat) :
    popN ⟨l, cap⟩ l.length = (l, ⟨[], cap⟩) := by
  induction l with
  | nil => rfl
  | cons r rest ih => simp [popN, ActionQueue.pop, ih]

theorem drainList_append (live : DisplayObject → Bool) (l1 l2 : List QueuedActions) :
    drainList live (l1 ++ l2) = drainList live l1 ++ drainList live l2 := by
  induction l1 with
  | nil => simp [drainList]
  | cons r rest ih =>
    simp only [List.cons_append, drainList]
    split <;> simp [ih]

theorem mkRecord_injective : Function.Injective mkRecord := by
  intro a b hab
  obtain ⟨c1, a1, u1⟩ := a
  obtain ⟨c2, a2, u2⟩ := b
  simpa [mkRecord, QueuedActions.mk.injEq, Prod.ext_iff] using hab

theorem popN_map (ts : List (DisplayObject × ActionType × Bool)) (cap : Nat) :
    popN ⟨ts.map mkRecord, cap⟩ ts.length = (ts.map mkRecord, ⟨[], cap⟩) := by
  simpa using popN_exact (ts.map mkRecord) cap

theorem popN_enqueueAll_new (ts : List (DisplayObject × ActionType × Bool)) :
    (popN (enqueueAll ActionQueue.new ts) ts.length).1 = ts.map mkRecord := by
  rw [enqueueAll_eq]
  show (popN ⟨ts.map mkRecord, ActionQueue.DEFAULT_CAPACITY⟩ ts.length).1 = ts.map mkRecord
  rw [popN_map]

/-! ## Claim theorems -/

/-- Claim C1: for any sequence of N queue_actions calls with distinct
payloads on a fresh queue, N consecutive pop calls return the queued
records in exactly the submission order (first enqueued, first popped). -/
theorem fifo_order (ts : List (DisplayObject × ActionType × Bool))
    (_h : ts.Nodup) :
    (popN (enqueueAll ActionQueue.new ts) ts.length).1 = ts.map mkRecord :=
  popN_enqueueAll_new ts

/-- Claim C1 witness at a concrete two-element sequence. -/
theorem fifo_order_witness :
    ([(⟨0⟩, ActionType.Normal ⟨0, 0, 4⟩, false), (⟨1⟩, ActionType.Init ⟨0, 4, 8⟩, true)] :
        List (DisplayObject × ActionType × Bool)).Nodup ∧
    (popN (enqueueAll ActionQueue.new
          [(⟨0⟩, ActionType.Normal ⟨0, 0, 4⟩, false), (⟨1⟩, ActionType.Init ⟨0, 4, 8⟩, true)]) 2).1
      = [(⟨0⟩, ActionType.Normal ⟨0, 0, 4⟩, false), (⟨1⟩, ActionType.Init ⟨0, 4, 8⟩, true)].map mkRecord :=
  ⟨by decide,
   fifo_order [(⟨0⟩, ActionType.Normal ⟨0, 0, 4⟩, false), (⟨1⟩, ActionType.Init ⟨0, 4, 8⟩, true)]
     (by decide)⟩

/-- Claim C2: tracing an ActionType reports exactly the collector-managed
references embedded in it: NotifyListeners with K argument values traces
exactly those K values, in order; Normal, Init and Method trace zero
references. -/
theorem actionType_trace_exact :
    (∀ l m args, (ActionType.NotifyListeners l m args).trace = args.map TracedRef.valueRef ∧
      ((ActionType.NotifyListeners l m args).trace).length = args.length) ∧
    (∀ b, (ActionType.Normal b).trace = []) ∧
    (∀ b, (ActionType.Init b).trace = []) ∧
    (∀ n, (ActionType.Method n).trace = []) :=
  ⟨fun _ _ args => ⟨rfl, by simp [ActionType.trace]⟩,
   fun _ => rfl, fun _ => rfl, fun _ => rfl⟩

/-- Claim C3: the queue trace visits every queued record: every reference
reported by the trace of a record in the queue is reported by the trace
of the whole queue. -/
theorem actionQueue_trace_complete (q : ActionQueue) (r : QueuedActions)
    (x : TracedRef) (hr : r ∈ q.queue) (hx : x ∈ r.trace) :
    x ∈ q.trace :=
  List.mem_flatMap.mpr ⟨r, hr, hx⟩

/-- Claim C3 witness: an embedded argument value of a queued
NotifyListeners action is reported by the queue trace. -/
theorem actionQueue_trace_complete_witness :
    TracedRef.valueRef ⟨5⟩ ∈ ActionQueue.trace
      ⟨[{ clip := ⟨1⟩, action_type := ActionType.NotifyListeners ⟨0⟩ "m" [⟨5⟩], is_unload := false }], 32⟩ :=
  actionQueue_trace_complete _
    { clip := ⟨1⟩, action_type := ActionType.NotifyListeners ⟨0⟩ "m" [⟨5⟩], is_unload := false }
    _ (List.mem_singleton.mpr rfl) (by simp [QueuedActions.trace, ActionType.trace])

/-- Claim C4: queue_actions never fails: it appends exactly one new
record at the tail, leaving all previously queued records in place and
in order. -/
theorem queue_actions_appends (q : ActionQueue) (c : DisplayObject)
    (a : ActionType) (u : Bool) :
    (q.queue_actions c a u).queue = q.queue ++ [{ clip := c, action_type := a, is_unload := u }] ∧
    (q.queue_actions c a u).queue.length = q.queue.length + 1 :=
  ⟨rfl, by simp [ActionQueue.queue_actions]⟩

/-- Claim C5: pop removes and returns the head record in FIFO order when
the queue is non-empty, and returns none on the empty queue, leaving it
unchanged. -/
theorem pop_spec (q : ActionQueue) :
    (q.queue = [] → q.pop = (none, q)) ∧
    (∀ r rest, q.queue = r :: rest →
      q.pop = (some r, { queue := rest, capacity := q.capacity })) := by
  obtain ⟨l, cap⟩ := q
  refine ⟨fun h => ?_, fun r rest h => ?_⟩
  · subst h; rfl
  · subst h; rfl

/-- Claim C5 witness: popping the fresh queue returns none and the same
queue. -/
theorem pop_spec_witness :
    ActionQueue.new.queue = [] ∧ ActionQueue.new.pop = (none, ActionQueue.new) :=
  ⟨rfl, (pop_spec ActionQueue.new).1 rfl⟩

/-- Claim C6: enqueue-then-pop round-trips each record unchanged: the
popped records are exactly the enqueued (clip, action, is_unload)
triples, in order, and for distinct enqueued payloads the popped records
are pairwise distinct, so each enqueued record is returned at most
once. -/
theorem enqueue_pop_roundtrip (ts : List (DisplayObject × ActionType × Bool))
    (h : ts.Nodup) :
    (popN (enqueueAll ActionQueue.new ts) ts.length).1 = ts.map mkRecord ∧
    ((popN (enqueueAll ActionQueue.new ts) ts.length).1).Nodup := by
  refine ⟨popN_enqueueAll_new ts, ?_⟩
  rw [popN_enqueueAll_new ts]
  exact List.Nodup.map mkRecord_injective h

/-- Claim C6 witness at a concrete one-element sequence. -/
theorem enqueue_pop_roundtrip_witness :
    ([(⟨4⟩, ActionType.Init ⟨1, 0, 4⟩, false)] : List (DisplayObject × ActionType × Bool)).Nodup ∧
    ((popN (enqueueAll ActionQueue.new [(⟨4⟩, ActionType.Init ⟨1, 0, 4⟩, false)]) 1).1
        = [(⟨4⟩, ActionType.Init ⟨1, 0, 4⟩, false)].map mkRecord ∧
      ((popN (enqueueAll ActionQueue.new [(⟨4⟩, ActionType.Init ⟨1, 0, 4⟩, false)]) 1).1).Nodup) :=
  ⟨by decide, enqueue_pop_roundtrip [(⟨4⟩, ActionType.Init ⟨1, 0, 4⟩, false)] (by decide)⟩

/-- Claim C7: during drain, a record whose target node is no longer live
is skipped (silently discarded, the rest of the drain unaffected) when
its is_unload flag is false, and is still invoked when the flag is
true. -/
theorem drain_unload_skip (live : DisplayObject → Bool) (c : DisplayObject)
    (a : ActionType) (pre post : List QueuedActions) (cap : Nat)
    (h : live c = false) :
    ActionQueue.drain live ⟨pre ++ { clip := c, action_type := a, is_unload := false } :: post, cap⟩
      = drainList live pre ++ drainList live post ∧
    ActionQueue.drain live ⟨pre ++ { clip := c, action_type := a, is_unload := true } :: post, cap⟩
      = drainList live pre ++ { clip := c, action_type := a, is_unload := true } :: drainList live post := by
  constructor <;> simp [ActionQueue.drain, drainList_append, drainList, h]

/-- Claim C7 witness: a dead target with is_unload false is skipped, and
with is_unload true is invoked. -/
theorem drain_unload_skip_witness :
    live0 ⟨2⟩ = false ∧
    ActionQueue.drain live0
        ⟨[{ clip := ⟨2⟩, action_type := ActionType.Init ⟨0, 0, 4⟩, is_unload := false }], 32⟩ = [] ∧
    ActionQueue.drain live0
        ⟨[{ clip := ⟨2⟩, action_type := ActionType.Init ⟨0, 0, 4⟩, is_unload := true }], 32⟩
      = [{ clip := ⟨2⟩, action_type := ActionType.Init ⟨0, 0, 4⟩, is_unload := true }] := by
  have h := drain_unload_skip live0 ⟨2⟩ (ActionType.Init ⟨0, 0, 4⟩) [] [] 32 rfl
  exact ⟨rfl, by simpa [drainList] using h.1, by simpa [drainList] using h.2⟩

/-- Claim C8: a SetTarget to a nonexistent, non-empty path clears the
target override to none (no error, no substitute node) and sets the
active clip to the root, so active-target resolution yields the root. -/
theorem set_target_invalid (resolve : String → Option DisplayObject)
    (s : TargetState) (path : String) (hne : path ≠ "")
    (hres : resolve path = none) :
    (setTarget resolve s path).target_clip = none ∧
    (setTarget resolve s path).active_clip = s.root ∧
    activeTarget (setTarget resolve s path) = s.root := by
  simp [setTarget, activeTarget, hne, hres]

/-- Claim C8 witness at a concrete state and an unresolvable path. -/
theorem set_target_invalid_witness :
    ("x" : String) ≠ "" ∧ resolve0 "x" = none ∧
    ((setTarget resolve0 ⟨⟨0⟩, ⟨1⟩, some ⟨2⟩, ⟨3⟩⟩ "x").target_clip = none ∧
      (setTarget resolve0 ⟨⟨0⟩, ⟨1⟩, some ⟨2⟩, ⟨3⟩⟩ "x").active_clip = ⟨0⟩ ∧
      activeTarget (setTarget resolve0 ⟨⟨0⟩, ⟨1⟩, some ⟨2⟩, ⟨3⟩⟩ "x") = ⟨0⟩) :=
  ⟨by decide, rfl,
   set_target_invalid resolve0 ⟨⟨0⟩, ⟨1⟩, some ⟨2⟩, ⟨3⟩⟩ "x" (by decide) rfl⟩

/-- Claim C9: a freshly constructed queue is empty: new and default are
equal, the first pop returns none leaving the queue unchanged, and the
reserved capacity hint is the default capacity, 32. -/
theorem new_default_empty :
    ActionQueue.default = ActionQueue.new ∧
    ActionQueue.new.queue = [] ∧
    ActionQueue.new.pop = (none, ActionQueue.new) ∧
    ActionQueue.new.capacity = ActionQueue.DEFAULT_CAPACITY ∧
    ActionQueue.DEFAULT_CAPACITY = 32 :=
  ⟨rfl, rfl, rfl, rfl, rfl⟩

/-- Claim C10: tracing a queued record reports the target clip itself as
reachable, in addition to every reference reported by the action
payload. -/
theorem queuedActions_trace_clip (r : QueuedActions) :
    TracedRef.clipRef r.clip ∈ r.trace ∧
    ∀ x ∈ r.action_type.trace, x ∈ r.trace :=
  ⟨List.mem_cons_self _ _, fun _ hx => List.mem_cons_of_mem _ hx⟩

/-- Claim C10 witness: both the clip and an embedded argument value of a
concrete record are reported by its trace. -/
theorem queuedActions_trace_clip_witness :
    TracedRef.clipRef ⟨1⟩ ∈ QueuedActions.trace
      { clip := ⟨1⟩, action_type := ActionType.NotifyListeners ⟨0⟩ "m" [⟨7⟩], is_unload := false } ∧
    TracedRef.valueRef ⟨7⟩ ∈ QueuedActions.trace
      { clip := ⟨1⟩, action_type := ActionType.NotifyListeners ⟨0⟩ "m" [⟨7⟩], is_unload := false } :=
  ⟨(queuedActions_trace_clip _).1,
   (queuedActions_trace_clip _).2 _ (by simp [ActionType.trace])⟩
